import Mathlib

set_option maxRecDepth 8000

/-
Verification of the forcelib repository (CSV ingestion and analysis of
tensometer force/displacement data) against its natural-language
specification.  The repository holds two revisions of the core module:
the canonical `forcelib.py` at the top level and an earlier revision in
the `forcelib/` package directory.  Both are embedded here where claims
distinguish them.

Numbers are modelled as exact rationals (ℚ); Python exceptions are
modelled with an explicit error type and `Except`.
-/

/-- Python exception kinds raised by the embedded code paths.
`stopIteration` stands for the exception escaping the header-probe
generator (`next(f)` on an exhausted file iterator). -/
inductive PyErr
  | valueError
  | indexError
  | stopIteration
deriving DecidableEq, Repr

/-- Python `str.splitlines` restricted to `'\n'` separators (the only line
ending appearing in the repository's data and fixtures): splits on `'\n'`
and, unlike a plain split, produces no trailing empty line. -/
def splitlines (s : String) : List String :=
  if s.isEmpty then []
  else if s.endsWith "\n" then (s.split (fun c => c == '\n')).dropLast
  else s.split (fun c => c == '\n')

/-- Digits of a decimal literal folded into a natural number. -/
def digitsToNat (l : List Char) : ℕ :=
  l.foldl (fun n c => 10 * n + (c.toNat - '0'.toNat)) 0

/-- Strip one leading `'+'` or `'-'`. -/
def stripSignChars : List Char → List Char
  | '+' :: r => r
  | '-' :: r => r
  | l => l

/-- Split a character list at the first `'e'`/`'E'` (exponent marker). -/
def splitExp (l : List Char) : List Char × List Char :=
  (l.takeWhile (fun c => !(c == 'e' || c == 'E')),
   l.dropWhile (fun c => !(c == 'e' || c == 'E')))

/-- Value of a Python `float(...)` call on a string, as an exact rational:
optional surrounding whitespace, optional sign, a mantissa
(`digits`, `digits.digits`, `digits.` or `.digits`) and an optional
exponent part.  Returns `none` when `float` would raise `ValueError`.
(Underscored literals and the non-finite words are not given a rational
value; the words are handled separately by `isInfNanChars`.) -/
def parseFloat? (s : String) : Option ℚ :=
  let l := s.trim.data
  let sgn : ℚ := match l with
    | '-' :: _ => -1
    | _ => 1
  let core := stripSignChars l
  let (mant, expPart) := splitExp core
  let ip := mant.takeWhile Char.isDigit
  let r1 := mant.dropWhile Char.isDigit
  let fracOk : Option (List Char) :=
    match r1 with
    | [] => if ip.isEmpty then none else some []
    | '.' :: r2 =>
        if r2.all Char.isDigit && (!ip.isEmpty || !r2.isEmpty) then some r2
        else none
    | _ => none
  match fracOk with
  | none => none
  | some fp =>
    let mval : ℚ := (digitsToNat ip : ℚ) + (digitsToNat fp : ℚ) / (10 : ℚ) ^ fp.length
    match expPart with
    | [] => some (sgn * mval)
    | _ :: r =>
      let (eneg, ed) : Bool × List Char := match r with
        | '+' :: rr => (false, rr)
        | '-' :: rr => (true, rr)
        | rr => (false, rr)
      if ed.isEmpty || !ed.all Char.isDigit then none
      else
        let e := digitsToNat ed
        some (sgn * mval * (if eneg then 1 / (10 : ℚ) ^ e else (10 : ℚ) ^ e))

/-- The words `inf`, `infinity`, `nan` (any case, optional sign), which
Python's `float(...)` also accepts. -/
def isInfNanChars (l : List Char) : Bool :=
  let w := (stripSignChars l).map Char.toLower
  w == "inf".data || w == "infinity".data || w == "nan".data

/-- Whether Python's `float(s)` succeeds (does not raise `ValueError`). -/
def pythonFloatParses (s : String) : Bool :=
  (parseFloat? s).isSome || isInfNanChars s.trim.data

/-- `line.split(',')` as in Python: on an empty string this yields `[""]`,
never the empty list, exactly as Lean's `String.split` does. -/
def pySplit (line : String) : List String :=
  line.split (fun c => c == ',')

/-- Whether `line.split(',')[1]` exists, i.e. the line has at least two
comma-separated fields.  When it does not, the canonical revision's
header probe raises an uncaught `IndexError`. -/
def lineHasProbe (line : String) : Bool :=
  ((pySplit line).get? 1).isSome

/-- Whether the canonical revision's probe succeeds on the line:
`float(line.split(',')[1])` neither missing nor a `ValueError`. -/
def lineParsesNew (line : String) : Bool :=
  match (pySplit line).get? 1 with
  | some f => pythonFloatParses f
  | none => false

/-- Whether the earlier revision's probe succeeds on the line:
`int(line[0])` on the first character, which (for the ASCII data this
library handles) succeeds exactly when the line is nonempty and starts
with a decimal digit. -/
def lineLeadDigit (line : String) : Bool :=
  match line.data with
  | [] => false
  | c :: _ => c.isDigit

/-- Loop body of the canonical `_count_headers` over the already-split
lines: per line, `float(line.split(',')[1])`; success returns the line
number; `ValueError` continues; a missing second field raises an
uncaught `IndexError`; exhaustion raises
`ValueError('Line starting with integer not found')`. -/
def countHeadersLines : List String → Except PyErr ℕ
  | [] => .error .valueError
  | l :: rest =>
    if lineHasProbe l then
      if lineParsesNew l then .ok 0
      else (countHeadersLines rest).map (· + 1)
    else .error .indexError

/-- Canonical revision `_count_headers` (src/forcelib.py). -/
def _count_headers (csv_data : String) : Except PyErr ℕ :=
  countHeadersLines (splitlines csv_data)

/-- Loop body of the earlier revision's `_count_headers`: per line,
`int(line[0])`; both `IndexError` (empty line) and `ValueError`
(non-digit first character) are caught and the line skipped;
exhaustion raises `ValueError`. -/
def countHeadersLinesOld : List String → Except PyErr ℕ
  | [] => .error .valueError
  | l :: rest =>
    if lineLeadDigit l then .ok 0
    else (countHeadersLinesOld rest).map (· + 1)

/-- Earlier revision `_count_headers` (src/forcelib/forcelib.py). -/
def _count_headers_old (csv_data : String) : Except PyErr ℕ :=
  countHeadersLinesOld (splitlines csv_data)

/-- `_HEADER_ROWS_MAX`: maximum header rows to read when probing. -/
def _HEADER_ROWS_MAX : ℕ := 10

/-- `_COLS_PER_TEST`: columns of data in the CSV file for each test. -/
def _COLS_PER_TEST : ℕ := 4

/-- A raw CSV cell after pandas parsing: `none` is NaN (an empty cell; a
non-numeric cell in a numeric block is likewise modelled as missing). -/
def Cell : Type := Option ℚ
deriving DecidableEq, Repr

/-- Parse one body cell the way `pd.read_csv` yields it for this data:
empty (whitespace-only) cells become NaN, numeric literals their value. -/
def parseCell (s : String) : Cell :=
  if s.trim.isEmpty then (none : Option ℚ) else parseFloat? s

/-- One reshaped data row: the four named columns of a per-test block
(`force`, `displacement`, `minutes`, `event` after the boolean cast). -/
structure Row where
  force : ℚ
  displacement : ℚ
  minutes : ℚ
  event : Bool
deriving DecidableEq, Repr

/-- The multi-index DataFrame produced by `_to_dataframe`: the two index
level names (always `("test", "time")`) and, per concatenation key (test
name), the rows keyed by time in seconds. -/
structure IngestedTable where
  indexNames : String × String
  groups : List (String × List (ℚ × Row))
deriving DecidableEq, Repr

/-- Number of columns of a raw table (pandas pads ragged rows with NaN,
so the column count is the longest row's length). -/
def ncols (df : List (List Cell)) : ℕ :=
  df.foldr (fun r m => max r.length m) 0

/-- One per-test frame: the block of 4 consecutive columns starting at
`c0`, with rows containing any missing value dropped (`dropna`), indexed
by `minutes * 60` and with `event` cast to boolean (`astype(bool)`,
applied in the source after concatenation, which is equivalent
row-by-row once NaN rows are gone). -/
def blockFrame (df : List (List Cell)) (c0 : ℕ) : List (ℚ × Row) :=
  df.filterMap (fun row =>
    match row.getD c0 (none : Option ℚ), row.getD (c0 + 1) (none : Option ℚ),
          row.getD (c0 + 2) (none : Option ℚ), row.getD (c0 + 3) (none : Option ℚ) with
    | some f, some d, some m, some e => some (m * 60, ⟨f, d, m, e != 0⟩)
    | _, _, _, _ => none)

/-- The per-test frames, one per block of `_COLS_PER_TEST` columns. -/
def framesOf (df : List (List Cell)) : List (List (ℚ × Row)) :=
  (List.range (ncols df / _COLS_PER_TEST)).map (fun b => blockFrame df (_COLS_PER_TEST * b))

/-- Canonical revision `_to_dataframe` (src/forcelib.py): reshape into
per-test frames and concatenate with the test names as keys
(`pd.concat(frames, keys=test_names)` pairs keys with frames), setting
the index level names to `("test", "time")`.  The canonical revision
performs no name synthesis, so the names are taken as given. -/
def _to_dataframe (df : List (List Cell)) (test_names : List String) : IngestedTable :=
  ⟨("test", "time"), test_names.zip (framesOf df)⟩

/-- The synthesized test names `"Test 1", "Test 2", …` of the earlier
revision, in column-block order. -/
def autoTestNames (n : ℕ) : List String :=
  (List.range n).map (fun i => "Test " ++ toString (i + 1))

/-- Earlier revision `_to_dataframe` (src/forcelib/forcelib.py): same
reshaping, but when `test_names` is not supplied (or empty — the
`if not test_names:` guard) it synthesizes `"Test 1", "Test 2", …`. -/
def _to_dataframe_old (df : List (List Cell)) (test_names : Option (List String)) : IngestedTable :=
  let frames := framesOf df
  let names := match test_names with
    | none => autoTestNames (ncols df / _COLS_PER_TEST)
    | some ns => if ns.isEmpty then autoTestNames (ncols df / _COLS_PER_TEST) else ns
  ⟨("test", "time"), names.zip frames⟩

/-- `np.trapz(y, x)`: trapezoidal rule over successive sample pairs in
the given order (signed; nothing is re-sorted). -/
def trapz : List ℚ → List ℚ → ℚ
  | y1 :: y2 :: ys, x1 :: x2 :: xs => (x2 - x1) * (y1 + y2) / 2 + trapz (y2 :: ys) (x2 :: xs)
  | _, _ => 0

/-- `work(df)`: per test group (`groupby(level=0)` over the concat keys;
pandas sorts group keys, the concat keys here are already distinct and
the fixtures use them in sorted order), the trapezoidal integral of the
`force` column with respect to the `displacement` column, divided
by 1000. -/
def work (t : IngestedTable) : List (String × ℚ) :=
  t.groups.map (fun g =>
    (g.1, trapz (g.2.map (fun p => p.2.force)) (g.2.map (fun p => p.2.displacement)) / 1000))

/-- `_exclude` (canonical revision): the set of raw column indices
covered by the 1-based test ordinals to exclude; `None` (and, through
the `if tests_to_exclude:` guard, the empty set) yields the empty set.
Python integers are modelled as ℤ. -/
def _exclude (tests_to_exclude : Option (Finset ℤ)) : Finset ℤ :=
  match tests_to_exclude with
  | none => ∅
  | some s =>
      if s = ∅ then ∅
      else s.biUnion (fun test_num =>
        (Finset.range _COLS_PER_TEST).image
          (fun col_num : ℕ => (col_num : ℤ) + (_COLS_PER_TEST : ℤ) * (test_num - 1)))

/-- The probe read in `read_csv`:
`head = ''.join(next(f) for line_num in range(_HEADER_ROWS_MAX))`.
Each of the first 10 file lines is consumed with `next`, so a file of
fewer than 10 lines raises before anything else happens (the exception
escaping the generator; no header counting or parsing occurs).  On
success the head is the 10 lines joined with their line endings. -/
def probeHead (fileLines : List String) : Except PyErr String :=
  if fileLines.length < _HEADER_ROWS_MAX then .error .stopIteration
  else .ok (String.join ((fileLines.take _HEADER_ROWS_MAX).map (fun l => l ++ "\n")))

/-- `_get_test_names`: the 3rd header line (`splitlines()[2]`, an
`IndexError` when absent), every 4th comma-separated field from 0. -/
def every4th : List String → List String
  | [] => []
  | [x] => [x]
  | [x, _] => [x]
  | [x, _, _] => [x]
  | x :: _ :: _ :: _ :: rest => x :: every4th rest

/-- `_get_test_names(csv_data)` of the canonical revision. -/
def _get_test_names (csv_data : String) : Except PyErr (List String) :=
  match (splitlines csv_data).get? 2 with
  | none => .error .indexError
  | some row => .ok (every4th (pySplit row))

/-- Drop the cells whose 0-based column position is in the excluded set
(`df.drop(..., errors='ignore')`: out-of-range indices are no-ops). -/
def dropCols (excluded : Finset ℤ) (row : List Cell) : List Cell :=
  (row.enum.filter (fun p => !(decide ((p.1 : ℤ) ∈ excluded)))).map Prod.snd

/-- Canonical `read_csv` on a file given as its list of lines: probe the
first 10 lines, count headers, extract test names, parse the body after
the headers, drop excluded test columns, reshape. -/
def read_csv (fileLines : List String) (exclude : Option (Finset ℤ)) :
    Except PyErr IngestedTable := do
  let head ← probeHead fileLines
  let n_headers ← _count_headers head
  let test_names ← _get_test_names head
  let all_data := (fileLines.drop n_headers).map (fun l => (pySplit l).map parseCell)
  let excluded := _exclude exclude
  let included := all_data.map (dropCols excluded)
  return _to_dataframe included test_names

/-- `array.min()` of a nonempty numeric array (junk value 0 on empty,
where numpy would raise). -/
def lmin : List ℚ → ℚ
  | [] => 0
  | x :: xs => xs.foldl min x

/-- `array.max()` of a nonempty numeric array (junk value 0 on empty). -/
def lmax : List ℚ → ℚ
  | [] => 0
  | x :: xs => xs.foldl max x

/-- `rescale(old_array, min_, max_)` from src/arraylib.py:
`scale_factor = (max_ - min_) / (old_array.max() - old_array.min())`;
result elementwise `min_ + scale_factor * (x - old_array.min())`. -/
def rescale (old_array : List ℚ) (min_ max_ : ℚ) : List ℚ :=
  let scale_factor := (max_ - min_) / (lmax old_array - lmin old_array)
  old_array.map (fun x => min_ + scale_factor * (x - lmin old_array))

/-- A single-index DataFrame for the array utilities: an optional index
name, the index values, and named columns of values aligned with the
index positionally. -/
structure Table where
  indexName : Option String
  index : List ℚ
  cols : List (String × List ℚ)
deriving DecidableEq, Repr

/-- `np.interp(x, xp, fp)` over the zipped sample points `(xp, fp)`,
which are assumed increasing in `xp`: values left of the first sample
clamp to the first `fp`, values right of the last clamp to the last
`fp`, and interior values are linearly interpolated on their segment. -/
def npInterp (x : ℚ) : List (ℚ × ℚ) → ℚ
  | [] => 0
  | [(_, f)] => f
  | (x1, f1) :: (x2, f2) :: rest =>
    if x ≤ x1 then f1
    else if x ≤ x2 then f1 + (f2 - f1) * (x - x1) / (x2 - x1)
    else npInterp x ((x2, f2) :: rest)

/-- `interp(df, new_index)` from src/arraylib.py: a new DataFrame on
`new_index`, with the input's index name copied and every column
independently interpolated (`np.interp(new_index, df.index, col)`). -/
def interp (df : Table) (new_index : List ℚ) : Table :=
  ⟨df.indexName, new_index,
   df.cols.map (fun c => (c.1, new_index.map (fun x => npInterp x (df.index.zip c.2))))⟩

/-- The canonical 5-row/8-column fixture of the unit tests
(`TestArrayFunctions.setUp`): two tests of four columns, the second test
one row short (trailing NaNs). -/
def fixtureRaw : List (List Cell) :=
  [[some 1.2, some 0, some 0.1, some 0, some 0.8, some 0, some 0.1, some 1],
   [some 1.3, some 0.3, some 0.2, some 1, some 0.5, some 0, some 0.25, some 1],
   [some 1.4, some 0.2, some 0.3, some 0, some 0.7, some 0.3, some 0.3, some 1],
   [some 1.5, some 0.5, some 0.4, some 1, some 0.8, some 0.2, some 0.4, some 0],
   [some 1.6, some 0.5, some 0.45, some 0, none, none, none, none]]

/-- The test names used by the fixture. -/
def fixtureNames : List String := ["Test 1", "Test 2"]

/-- The expected reshaped table of `TestArrayFunctions.test_to_dataframe`:
two per-test frames, rows with missing values dropped, time = minutes*60,
events cast to boolean, index names `("test", "time")`. -/
def fixtureExpected : IngestedTable :=
  ⟨("test", "time"),
   [("Test 1",
     [(6, ⟨1.2, 0, 0.1, false⟩), (12, ⟨1.3, 0.3, 0.2, true⟩),
      (18, ⟨1.4, 0.2, 0.3, false⟩), (24, ⟨1.5, 0.5, 0.4, true⟩),
      (27, ⟨1.6, 0.5, 0.45, false⟩)]),
    ("Test 2",
     [(6, ⟨0.8, 0, 0.1, true⟩), (15, ⟨0.5, 0, 0.25, true⟩),
      (18, ⟨0.7, 0.3, 0.3, true⟩), (24, ⟨0.8, 0.2, 0.4, false⟩)])]⟩

deriving instance DecidableEq for Except

/-- The 4-row/2-column table of `TestInterp.test_interp`: default integer
index `0..3` (whose name is `None`), columns `A = t + 1` and
`B = 10 - 2t`. -/
def interpTestTable : Table :=
  ⟨none, [0, 1, 2, 3], [("A", [1, 2, 3, 4]), ("B", [10, 8, 6, 4])]⟩

/-- `np.linspace(1, 3, 7)`, the new index of `TestInterp.test_interp`. -/
def interpTestIndex : List ℚ :=
  [1, 4/3, 5/3, 2, 7/3, 8/3, 3]

theorem except_map_ok (f : ℕ → ℕ) (a : ℕ) :
    (Except.ok a : Except PyErr ℕ).map f = .ok (f a) := rfl

theorem except_map_eq_error_iff (e : Except PyErr ℕ) (f : ℕ → ℕ) (x : PyErr) :
    e.map f = .error x ↔ e = .error x := by
  cases e <;> simp [Except.map]

theorem except_map_eq_ok_succ_iff (e : Except PyErr ℕ) (k : ℕ) :
    e.map (· + 1) = .ok (k + 1) ↔ e = .ok k := by
  cases e <;> simp [Except.map]

theorem lineParsesNew_hasProbe (l : String) (h : lineParsesNew l = true) :
    lineHasProbe l = true := by
  unfold lineParsesNew at h
  unfold lineHasProbe
  cases hg : (pySplit l).get? 1 with
  | none => rw [hg] at h; exact absurd h (by simp)
  | some f => simp

theorem lineParsesNew_empty : lineParsesNew "" = false := by
  with_unfolding_all decide

theorem lineLeadDigit_empty : lineLeadDigit "" = false := rfl

/-- First-hit characterization of the canonical header scan: if every
line before index `k` has a probe field that fails to parse, and line
`k`'s probe field parses, the scan returns `k`. -/
theorem countHeadersLines_ok_of_first (ls : List String) (k : ℕ)
    (hbefore : ∀ j, j < k →
      lineHasProbe (ls.getD j "") = true ∧ lineParsesNew (ls.getD j "") = false)
    (hat : lineParsesNew (ls.getD k "") = true) :
    countHeadersLines ls = .ok k := by
  induction ls generalizing k with
  | nil =>
    rw [List.getD_nil, lineParsesNew_empty] at hat
    exact absurd hat (by simp)
  | cons l rest ih =>
    cases k with
    | zero =>
      rw [List.getD_cons_zero] at hat
      have hp : lineHasProbe l = true := lineParsesNew_hasProbe l hat
      simp [countHeadersLines, hp, hat]
    | succ k =>
      have h0 := hbefore 0 (Nat.succ_pos k)
      rw [List.getD_cons_zero] at h0
      have hrec : countHeadersLines rest = .ok k := by
        refine ih k (fun j hj => ?_) ?_
        · have := hbefore (j + 1) (Nat.succ_lt_succ hj)
          rwa [List.getD_cons_succ] at this
        · rwa [List.getD_cons_succ] at hat
      simp [countHeadersLines, h0.1, h0.2, except_map_eq_ok_succ_iff, hrec]

/-- First-hit characterization of the earlier revision's header scan:
the scan returns the index of the first line starting with a digit. -/
theorem countHeadersLinesOld_ok_of_first (ls : List String) (k : ℕ)
    (hbefore : ∀ j, j < k → lineLeadDigit (ls.getD j "") = false)
    (hat : lineLeadDigit (ls.getD k "") = true) :
    countHeadersLinesOld ls = .ok k := by
  induction ls generalizing k with
  | nil =>
    rw [List.getD_nil, lineLeadDigit_empty] at hat
    exact absurd hat (by simp)
  | cons l rest ih =>
    cases k with
    | zero =>
      rw [List.getD_cons_zero] at hat
      simp [countHeadersLinesOld, hat]
    | succ k =>
      have h0 := hbefore 0 (Nat.succ_pos k)
      rw [List.getD_cons_zero] at h0
      have hrec : countHeadersLinesOld rest = .ok k := by
        refine ih k (fun j hj => ?_) ?_
        · have := hbefore (j + 1) (Nat.succ_lt_succ hj)
          rwa [List.getD_cons_succ] at this
        · rwa [List.getD_cons_succ] at hat
      simp [countHeadersLinesOld, h0, except_map_eq_ok_succ_iff, hrec]

/-- The canonical header scan ends in the final
`ValueError('Line starting with integer not found')` exactly when every
line has at least two comma-separated fields and none's second field
parses as a float. -/
theorem countHeadersLines_valueError_iff (ls : List String) :
    countHeadersLines ls = .error .valueError ↔
      ∀ l ∈ ls, lineHasProbe l = true ∧ lineParsesNew l = false := by
  induction ls with
  | nil => simp [countHeadersLines]
  | cons l rest ih =>
    by_cases hp : lineHasProbe l = true
    · by_cases hq : lineParsesNew l = true
      · simp only [countHeadersLines, hp, hq, if_true]
        constructor
        · intro h; exact absurd h (by simp)
        · intro h
          have := (h l (by simp)).2
          rw [hq] at this
          exact absurd this (by simp)
      · rw [Bool.not_eq_true] at hq
        simp only [countHeadersLines, hp, hq, if_true, Bool.false_eq_true, if_false]
        rw [except_map_eq_error_iff, ih]
        simp [hp, hq]
    · rw [Bool.not_eq_true] at hp
      simp only [countHeadersLines, hp, Bool.false_eq_true, if_false]
      constructor
      · intro h; exact absurd h (by simp)
      · intro h
        have := (h l (by simp)).1
        rw [hp] at this
        exact absurd this (by simp)

/-- When a line with fewer than two comma-separated fields precedes the
first line whose second field parses, the canonical scan dies with an
uncaught `IndexError`. -/
theorem countHeadersLines_indexError (ls : List String) (js kp : ℕ)
    (hjk : js < kp)
    (hshort : lineHasProbe (ls.getD js "") = false)
    (hmin : ∀ i, i < kp → lineParsesNew (ls.getD i "") = false)
    (hat : lineParsesNew (ls.getD kp "") = true) :
    countHeadersLines ls = .error .indexError := by
  induction ls generalizing js kp with
  | nil =>
    rw [List.getD_nil, lineParsesNew_empty] at hat
    exact absurd hat (by simp)
  | cons l rest ih =>
    by_cases hp : lineHasProbe l = true
    · cases js with
      | zero =>
        rw [List.getD_cons_zero] at hshort
        rw [hshort] at hp
        exact absurd hp (by simp)
      | succ js =>
        cases kp with
        | zero => exact absurd hjk (by omega)
        | succ kp =>
          have hq : lineParsesNew l = false := by
            have := hmin 0 (by omega)
            rwa [List.getD_cons_zero] at this
          simp only [countHeadersLines, hp, hq, if_true, Bool.false_eq_true, if_false]
          rw [except_map_eq_error_iff]
          refine ih js kp (by omega) ?_ (fun i hi => ?_) ?_
          · rwa [List.getD_cons_succ] at hshort
          · have := hmin (i + 1) (by omega)
            rwa [List.getD_cons_succ] at this
          · rwa [List.getD_cons_succ] at hat
    · rw [Bool.not_eq_true] at hp
      simp [countHeadersLines, hp]

/-- The earlier revision's scan catches both exceptions per line, so it
can never surface an `IndexError`. -/
theorem countHeadersLinesOld_ne_indexError (ls : List String) :
    countHeadersLinesOld ls ≠ .error .indexError := by
  induction ls with
  | nil => simp [countHeadersLinesOld]
  | cons l rest ih =>
    by_cases h : lineLeadDigit l = true
    · simp [countHeadersLinesOld, h]
    · rw [Bool.not_eq_true] at h
      simp only [countHeadersLinesOld, h, Bool.false_eq_true, if_false]
      rw [Ne, except_map_eq_error_iff]
      exact ih

theorem foldl_max_map (f : ℚ → ℚ) (hf : Monotone f) :
    ∀ (xs : List ℚ) (x : ℚ), (xs.map f).foldl max (f x) = f (xs.foldl max x) := by
  intro xs
  induction xs with
  | nil => intro x; rfl
  | cons y ys ih =>
    intro x
    simp only [List.map_cons, List.foldl_cons]
    rw [← hf.map_max, ih]

theorem foldl_min_map (f : ℚ → ℚ) (hf : Monotone f) :
    ∀ (xs : List ℚ) (x : ℚ), (xs.map f).foldl min (f x) = f (xs.foldl min x) := by
  intro xs
  induction xs with
  | nil => intro x; rfl
  | cons y ys ih =>
    intro x
    simp only [List.map_cons, List.foldl_cons]
    rw [← hf.map_min, ih]

theorem lmax_map (f : ℚ → ℚ) (hf : Monotone f) (a : List ℚ) (ha : a ≠ []) :
    lmax (a.map f) = f (lmax a) := by
  cases a with
  | nil => exact absurd rfl ha
  | cons x xs => simp only [List.map_cons, lmax]; exact foldl_max_map f hf xs x

theorem lmin_map (f : ℚ → ℚ) (hf : Monotone f) (a : List ℚ) (ha : a ≠ []) :
    lmin (a.map f) = f (lmin a) := by
  cases a with
  | nil => exact absurd rfl ha
  | cons x xs => simp only [List.map_cons, lmin]; exact foldl_min_map f hf xs x

theorem foldl_min_le_init : ∀ (xs : List ℚ) (x : ℚ), xs.foldl min x ≤ x := by
  intro xs
  induction xs with
  | nil => intro x; exact le_refl x
  | cons y ys ih =>
    intro x
    simp only [List.foldl_cons]
    exact le_trans (ih (min x y)) (min_le_left x y)

theorem init_le_foldl_max : ∀ (xs : List ℚ) (x : ℚ), x ≤ xs.foldl max x := by
  intro xs
  induction xs with
  | nil => intro x; exact le_refl x
  | cons y ys ih =>
    intro x
    simp only [List.foldl_cons]
    exact le_trans (le_max_left x y) (ih (max x y))

theorem lmin_le_lmax (a : List ℚ) (ha : a ≠ []) : lmin a ≤ lmax a := by
  cases a with
  | nil => exact absurd rfl ha
  | cons x xs =>
    simp only [lmin, lmax]
    exact le_trans (foldl_min_le_init xs x) (init_le_foldl_max xs x)

/-- `np.interp` reproduces an affine function of the sample positions
exactly at any point inside the sampled range. -/
theorem npInterp_linear (a b : ℚ) :
    ∀ (xs : List ℚ) (x : ℚ), xs ≠ [] → List.Chain' (· < ·) xs →
      xs.headD 0 ≤ x → x ≤ xs.getLastD 0 →
      npInterp x (xs.zip (xs.map (fun t => a * t + b))) = a * x + b := by
  intro xs
  induction xs with
  | nil => intro x hne; exact absurd rfl hne
  | cons x1 rest ih =>
    intro x _ hchain hlo hhi
    cases rest with
    | nil =>
      simp only [List.headD_cons] at hlo
      simp only [List.getLastD_cons, List.getLastD_nil] at hhi
      have : x = x1 := le_antisymm hhi hlo
      subst this
      simp [npInterp]
    | cons x2 rest2 =>
      have h12 : x1 < x2 := (List.chain'_cons.mp hchain).1
      simp only [List.headD_cons] at hlo
      simp only [List.map_cons, List.zip_cons_cons, npInterp]
      by_cases hle1 : x ≤ x1
      · have : x = x1 := le_antisymm hle1 hlo
        subst this
        simp
      · rw [if_neg hle1]
        by_cases hle2 : x ≤ x2
        · rw [if_pos hle2]
          have hne : x2 - x1 ≠ 0 := by
            intro h
            exact absurd (by linarith : x1 = x2) (ne_of_lt h12)
          field_simp
          ring
        · rw [if_neg hle2]
          have hx2 : x2 ≤ x := le_of_not_le hle2
          have := ih x (by simp) (List.chain'_cons.mp hchain).2
            (by simpa using hx2)
            (by
              rw [List.getLastD_cons] at hhi
              exact hhi)
          simpa using this

/-- Shared evaluation of the canonical reshaping on the unit-test
fixture. -/
theorem to_dataframe_fixture_eval :
    _to_dataframe fixtureRaw fixtureNames = fixtureExpected := by
  with_unfolding_all decide

/-- C3: `_to_dataframe` splits the fixture's 8 columns into two blocks of
4 named (force, displacement, minutes, event), drops incomplete rows per
block (the second test is one row short), indexes rows by minutes * 60,
concatenates keyed by test name with index level names ("test", "time"),
and casts `event` to boolean — producing exactly the two per-test frames
of `TestArrayFunctions.test_to_dataframe`. -/
theorem to_dataframe_reshapes_fixture :
    _to_dataframe fixtureRaw fixtureNames = fixtureExpected :=
  to_dataframe_fixture_eval

/-- C1: `work` groups the ingested table by the `test` index level and
yields, per test, `np.trapz(force, displacement) / 1000` over the rows in
table order (the fixture's first test has a decreasing displacement
segment, whose negative trapezoid contribution is visible in the exact
value); on the canonical fixture this is exactly 6.75e-4 J for "Test 1"
and 1.05e-4 J for "Test 2". -/
theorem work_fixture_values :
    work (_to_dataframe fixtureRaw fixtureNames) =
      [("Test 1", (6.75e-4 : ℚ)), ("Test 2", (1.05e-4 : ℚ))] := by
  rw [to_dataframe_fixture_eval]
  simp only [work, fixtureExpected, trapz, List.map]
  norm_num

/-- C4: `_exclude` is pure: each excluded 1-based ordinal k contributes
exactly the four column indices 4(k-1) .. 4(k-1)+3; `{1, 3}` yields
`{0,1,2,3,8,9,10,11}`; `None` and the empty set yield the empty set. -/
theorem exclude_ordinal_columns :
    (∀ s : Finset ℤ, _exclude (some s) = s.biUnion (fun k =>
      ({4 * (k - 1), 4 * (k - 1) + 1, 4 * (k - 1) + 2, 4 * (k - 1) + 3} : Finset ℤ))) ∧
    _exclude (some ({1, 3} : Finset ℤ)) = ({0, 1, 2, 3, 8, 9, 10, 11} : Finset ℤ) ∧
    _exclude none = (∅ : Finset ℤ) ∧
    _exclude (some (∅ : Finset ℤ)) = (∅ : Finset ℤ) := by
  refine ⟨?_, by with_unfolding_all decide, rfl, by with_unfolding_all decide⟩
  intro s
  by_cases hs : s = ∅
  · subst hs; simp [_exclude]
  · simp only [_exclude, hs, if_false]
    apply Finset.biUnion_congr rfl
    intro k _
    ext x
    simp only [Finset.mem_image, Finset.mem_range, Finset.mem_insert,
      Finset.mem_singleton, _COLS_PER_TEST]
    constructor
    · rintro ⟨c, hc, rfl⟩
      omega
    · rintro (rfl | rfl | rfl | rfl)
      · exact ⟨0, by omega, by push_cast; ring⟩
      · exact ⟨1, by omega, by push_cast; ring⟩
      · exact ⟨2, by omega, by push_cast; ring⟩
      · exact ⟨3, by omega, by push_cast; ring⟩

/-- C4 witness: the theorem applied at the concrete ordinal set {2}. -/
theorem exclude_ordinal_columns_witness :
    _exclude (some ({2} : Finset ℤ)) = ({2} : Finset ℤ).biUnion (fun k =>
      ({4 * (k - 1), 4 * (k - 1) + 1, 4 * (k - 1) + 2, 4 * (k - 1) + 3} : Finset ℤ)) :=
  exclude_ordinal_columns.1 {2}

/-- C5: when test names are not supplied, the earlier revision's
`_to_dataframe` synthesizes "Test 1", "Test 2", … in column-block order,
and those are exactly the outer (`test`) index labels of the result; on
the fixture they are ["Test 1", "Test 2"]. -/
theorem to_dataframe_old_auto_names :
    (∀ df : List (List Cell), (_to_dataframe_old df none).groups.map Prod.fst =
      autoTestNames (ncols df / _COLS_PER_TEST)) ∧
    (_to_dataframe_old fixtureRaw none).groups.map Prod.fst = ["Test 1", "Test 2"] := by
  constructor
  · intro df
    simp only [_to_dataframe_old]
    apply List.map_fst_zip
    simp [autoTestNames, framesOf]
  · with_unfolding_all decide

/-- C5 witness: the theorem applied at a concrete one-test raw table. -/
theorem to_dataframe_old_auto_names_witness :
    (_to_dataframe_old ([[some 1, some 2, some 3, some 4]] : List (List Cell)) none).groups.map
      Prod.fst =
      autoTestNames (ncols ([[some 1, some 2, some 3, some 4]] : List (List Cell)) /
        _COLS_PER_TEST) :=
  to_dataframe_old_auto_names.1 _

/-- C10: a file of fewer than 10 lines makes `read_csv` fail during the
header probe (the probe consumes exactly 10 lines with `next`), before
any header counting or data parsing. -/
theorem read_csv_short_file :
    ∀ (fileLines : List String) (exclude : Option (Finset ℤ)),
      fileLines.length < _HEADER_ROWS_MAX →
      read_csv fileLines exclude = .error .stopIteration := by
  intro fl ex h
  simp [read_csv, probeHead, h, Bind.bind, Except.bind]

/-- C10 witness: the theorem applied at a concrete two-line file. -/
theorem read_csv_short_file_witness :
    (["a,b", "c,d"] : List String).length < _HEADER_ROWS_MAX ∧
    read_csv ["a,b", "c,d"] none = .error .stopIteration :=
  ⟨by decide, read_csv_short_file ["a,b", "c,d"] none (by decide)⟩

/-- C2 counterexample: the claim as stated fails on the earlier revision.
On `"-1\n0\n"` the first line's 1st comma-separated field (`"-1"`) parses
as a float, so per the claim the header count would be 0, yet the earlier
revision (whose probe is `int(line[0])` on the first character) skips it
and returns 1. -/
theorem count_headers_probe_field_counterexample :
    _count_headers_old "-1\n0\n" = .ok 1 ∧
    pythonFloatParses ((pySplit ((splitlines "-1\n0\n").getD 0 "")).getD 0 "") = true := by
  constructor <;> with_unfolding_all decide

/-- C2 (amended): the canonical revision returns the 0-based index of the
first probe line whose 2nd comma-separated field parses as a float,
provided every earlier line has such a field; the earlier revision
returns the index of the first line whose first character parses as an
integer (a decimal digit), and in particular yields 3 on
`"A\nB\nC\n0\n"` and 4 on `"A\nB\nC\nD\n0\n"`. -/
theorem count_headers_first_numeric_probe :
    (∀ (s : String) (k : ℕ),
      (∀ j, j < k → lineHasProbe ((splitlines s).getD j "") = true ∧
        lineParsesNew ((splitlines s).getD j "") = false) →
      lineParsesNew ((splitlines s).getD k "") = true →
      _count_headers s = .ok k) ∧
    (∀ (s : String) (k : ℕ),
      (∀ j, j < k → lineLeadDigit ((splitlines s).getD j "") = false) →
      lineLeadDigit ((splitlines s).getD k "") = true →
      _count_headers_old s = .ok k) ∧
    _count_headers_old "A\nB\nC\n0\n" = .ok 3 ∧
    _count_headers_old "A\nB\nC\nD\n0\n" = .ok 4 := by
  refine ⟨?_, ?_, ?_, ?_⟩
  · intro s k h1 h2
    exact countHeadersLines_ok_of_first (splitlines s) k h1 h2
  · intro s k h1 h2
    exact countHeadersLinesOld_ok_of_first (splitlines s) k h1 h2
  · with_unfolding_all decide
  · with_unfolding_all decide

/-- C2 witness: the first conjunct applied at a concrete two-line probe
text whose second line's 2nd field first parses as a float. -/
theorem count_headers_first_numeric_probe_witness :
    lineParsesNew "n,0.5" = true ∧ _count_headers "x,y\nn,0.5\n" = .ok 1 := by
  refine ⟨by with_unfolding_all decide,
    count_headers_first_numeric_probe.1 "x,y\nn,0.5\n" 1 ?_ ?_⟩
  · intro j hj
    have hj0 : j = 0 := by omega
    subst hj0
    constructor <;> with_unfolding_all decide
  · with_unfolding_all decide

/-- C6 counterexample: on `"A\nB\n"` no line has a probe field that
parses as a number, yet the canonical header scan raises `IndexError`
(the first line lacks a 2nd comma-separated field), not the documented
`ValueError` — refuting the claimed "if and only if". -/
theorem count_headers_invalid_format_counterexample :
    ((splitlines "A\nB\n").all (fun l => !(lineParsesNew l))) = true ∧
    _count_headers "A\nB\n" = .error .indexError := by
  constructor <;> with_unfolding_all decide

/-- C6 (amended): the canonical header scan fails with the final
`ValueError` ("line starting with a parseable number not found") exactly
when every probe line has at least two comma-separated fields and none's
2nd field parses as a float; no value is returned in that case (the
result is the error, not an index). -/
theorem count_headers_invalid_format :
    ∀ s : String, _count_headers s = .error .valueError ↔
      ∀ l ∈ splitlines s, lineHasProbe l = true ∧ lineParsesNew l = false :=
  fun s => countHeadersLines_valueError_iff (splitlines s)

/-- C6 witness: the iff applied at a concrete all-header probe text. -/
theorem count_headers_invalid_format_witness :
    _count_headers "a,b\nc,d\n" = .error .valueError :=
  (count_headers_invalid_format "a,b\nc,d\n").mpr (by with_unfolding_all decide)

/-- C9: in the canonical revision, a line with fewer than two
comma-separated fields preceding the first line whose 2nd field parses
as a float makes `_count_headers` raise an uncaught `IndexError` (not a
skip, not the documented `ValueError`); the earlier revision can never
surface an `IndexError`, and skips empty lines (the only lines on which
its `int(line[0])` raises `IndexError`). -/
theorem count_headers_short_line_behavior :
    (∀ (s : String) (js kp : ℕ), js < kp →
      lineHasProbe ((splitlines s).getD js "") = false →
      (∀ i, i < kp → lineParsesNew ((splitlines s).getD i "") = false) →
      lineParsesNew ((splitlines s).getD kp "") = true →
      _count_headers s = .error .indexError) ∧
    (∀ s : String, _count_headers_old s ≠ .error .indexError) ∧
    (∀ rest : List String,
      countHeadersLinesOld ("" :: rest) = (countHeadersLinesOld rest).map (· + 1)) := by
  refine ⟨?_, ?_, ?_⟩
  · intro s js kp h1 h2 h3 h4
    exact countHeadersLines_indexError (splitlines s) js kp h1 h2 h3 h4
  · intro s
    exact countHeadersLinesOld_ne_indexError (splitlines s)
  · intro rest
    simp [countHeadersLinesOld, lineLeadDigit_empty]

/-- C9 witness: the first conjunct applied at `"A\n0,1\n"`, where the
comma-less line "A" precedes the numeric line "0,1". -/
theorem count_headers_short_line_behavior_witness :
    lineHasProbe "A" = false ∧ _count_headers "A\n0,1\n" = .error .indexError := by
  refine ⟨by with_unfolding_all decide,
    count_headers_short_line_behavior.1 "A\n0,1\n" 0 1 (by omega) ?_ ?_ ?_⟩
  · with_unfolding_all decide
  · intro i hi
    have hi0 : i = 0 := by omega
    subst hi0
    with_unfolding_all decide
  · with_unfolding_all decide

/-- C7: for a nonempty non-constant array and target bounds
`min_ < max_`, `rescale` keeps the shape, applies exactly the source
formula `min_ + scale * (x - orig_min)`, lands its minimum on `min_` and
its maximum on `max_`, and is a strictly increasing affine map of the
input (the rank-preserving / correlation-1 property). -/
theorem rescale_affine (a : List ℚ) (min_ max_ : ℚ) (ha : a ≠ [])
    (hnc : lmin a ≠ lmax a) (hmm : min_ < max_) :
    (rescale a min_ max_).length = a.length ∧
    rescale a min_ max_ =
      a.map (fun x => min_ + (max_ - min_) / (lmax a - lmin a) * (x - lmin a)) ∧
    lmin (rescale a min_ max_) = min_ ∧
    lmax (rescale a min_ max_) = max_ ∧
    ∃ sc t : ℚ, 0 < sc ∧ rescale a min_ max_ = a.map (fun x => sc * x + t) := by
  have hlt : lmin a < lmax a := lt_of_le_of_ne (lmin_le_lmax a ha) hnc
  have hMm : (0 : ℚ) < lmax a - lmin a := by linarith
  have hspos : 0 < (max_ - min_) / (lmax a - lmin a) := div_pos (by linarith) hMm
  have hmono : Monotone (fun x => min_ + (max_ - min_) / (lmax a - lmin a) * (x - lmin a)) := by
    intro x y hxy
    have h1 : (max_ - min_) / (lmax a - lmin a) * (x - lmin a) ≤
        (max_ - min_) / (lmax a - lmin a) * (y - lmin a) :=
      mul_le_mul_of_nonneg_left (by linarith) (le_of_lt hspos)
    simpa using add_le_add_left h1 min_
  have hform : rescale a min_ max_ =
      a.map (fun x => min_ + (max_ - min_) / (lmax a - lmin a) * (x - lmin a)) := rfl
  refine ⟨by simp [rescale], hform, ?_, ?_, ?_⟩
  · rw [hform, lmin_map _ hmono a ha, sub_self, mul_zero, add_zero]
  · rw [hform, lmax_map _ hmono a ha, div_mul_eq_mul_div,
      mul_div_cancel_right₀ _ (ne_of_gt hMm)]
    ring
  · refine ⟨(max_ - min_) / (lmax a - lmin a),
      min_ - (max_ - min_) / (lmax a - lmin a) * lmin a, hspos, ?_⟩
    rw [hform]
    apply List.map_congr_left
    intro x _
    ring

/-- C7 witness: the theorem applied at the array [0, 1, 3] rescaled to
[2, 8]. -/
theorem rescale_affine_witness :
    lmin (rescale ([0, 1, 3] : List ℚ) 2 8) = 2 ∧
    lmax (rescale ([0, 1, 3] : List ℚ) 2 8) = 8 := by
  have h := rescale_affine ([0, 1, 3] : List ℚ) 2 8 (by decide)
    (by with_unfolding_all decide) (by norm_num)
  exact ⟨h.2.2.1, h.2.2.2.1⟩

/-- C8: `interp` returns a table on exactly the new index (hence with
`len(new_index)` rows in every column), copies the input's index name,
and — when a column is an exact linear function of the input's strictly
increasing index and the new index stays within the original range —
reproduces the exact linear values at every new index point. -/
theorem interp_linear_and_shape :
    ∀ (df : Table) (ni : List ℚ),
      (interp df ni).index = ni ∧
      (interp df ni).indexName = df.indexName ∧
      (∀ c ∈ (interp df ni).cols, c.2.length = ni.length) ∧
      (df.index ≠ [] → List.Chain' (· < ·) df.index →
        (∀ x ∈ ni, df.index.headD 0 ≤ x ∧ x ≤ df.index.getLastD 0) →
        ∀ (name : String) (a b : ℚ),
          (name, df.index.map (fun t => a * t + b)) ∈ df.cols →
          (name, ni.map (fun t => a * t + b)) ∈ (interp df ni).cols) := by
  intro df ni
  refine ⟨rfl, rfl, ?_, ?_⟩
  · intro c hc
    simp only [interp, List.mem_map] at hc
    obtain ⟨c0, _, rfl⟩ := hc
    simp
  · intro hne hchain hrange name a b hmem
    simp only [interp, List.mem_map]
    refine ⟨(name, df.index.map (fun t => a * t + b)), hmem, ?_⟩
    simp only [Prod.mk.injEq, true_and]
    apply List.map_congr_left
    intro x hx
    exact npInterp_linear a b df.index x hne hchain (hrange x hx).1 (hrange x hx).2

/-- C8 witness: the theorem applied at the `TestInterp.test_interp`
fixture, for its column A = t + 1 interpolated onto linspace(1, 3, 7). -/
theorem interp_linear_and_shape_witness :
    ("A", ([2, 7/3, 8/3, 3, 10/3, 11/3, 4] : List ℚ)) ∈
      (interp interpTestTable interpTestIndex).cols := by
  have h := (interp_linear_and_shape interpTestTable interpTestIndex).2.2.2
    (by with_unfolding_all decide)
    (by
      simp only [interpTestTable, List.chain'_cons, List.chain'_singleton, and_true]
      norm_num)
    (by with_unfolding_all decide) "A" 1 1 (by with_unfolding_all decide)
  have e : interpTestIndex.map (fun t => (1 : ℚ) * t + 1) =
      ([2, 7/3, 8/3, 3, 10/3, 11/3, 4] : List ℚ) := by
    with_unfolding_all decide
  rw [e] at h
  exact h
